import Mathlib

/-!
Shallow embedding of the coordinator core of the `roam` fleet
command-and-control server (crate `server`, mainly `handlers.rs`,
`state.rs`, and the shared wire types of crate `common`).

Uuids are modelled as natural numbers; `Uuid::new_v4()` is modelled as
drawing the current value of a freshness counter that is threaded
through every operation that mints ids (freshness = the counter only
grows, so distinct draws are distinct).
-/

namespace Roam

/-- Wire command payloads (`common/src/lib.rs`, `CommandPayload`;
the `DownloadAndUnzip` and `ZipAndUpload` variants are the ones
constructed by `run_script_task` in `handlers.rs`). -/
inductive CommandPayload where
  | ShellExec (cmd : String) (args : List String)
  | ChangeDir (path : String)
  | DownloadFile (url : String) (dest_path : String)
  | UploadFile (src_path : String) (upload_url : String)
  | ListDir (path : String)
  | GetHardwareInfo
  | UpdateClient (url : String)
  | ReadFile (path : String)
  | WriteFile (path : String) (content : String)
  | DownloadAndUnzip (url : String) (dest_path : String)
  | ZipAndUpload (src_path : String) (upload_url : String)
deriving DecidableEq, Repr

/-- One file entry of a directory listing (`common/src/lib.rs`, `FileInfo`). -/
structure FileInfo where
  name : String
  is_dir : Bool
  size : Nat
deriving DecidableEq, Repr

/-- Hardware telemetry snapshot (`common/src/lib.rs`, `HardwareInfo`;
the floating point cpu gauge is abstracted to a Nat, its value is never
inspected by the coordinator). -/
structure HardwareInfo where
  cpu_usage : Nat
  total_memory : Nat
  used_memory : Nat
  platform : String
deriving DecidableEq, Repr

/-- Wire command results (`common/src/lib.rs`, `CommandResult`). -/
inductive CommandResult where
  | ShellOutput (stdout : String) (stderr : String) (exit_code : Int)
  | DirChanged (new_path : String)
  | FileList (files : List FileInfo)
  | FileContent (content : String)
  | HardwareInfoRes (info : HardwareInfo)
  | Success (msg : String)
  | Error (msg : String)
deriving DecidableEq, Repr

/-- Wire messages (`common/src/lib.rs`, `Message`; the `ips` field of
`Register` is the one destructured by `handle_socket` in `handlers.rs`). -/
inductive Message where
  | Register (client_id : Nat) (token : String) (hostname : String)
      (os : String) (alias_ : Option String) (version : String) (ips : List String)
  | AuthSuccess
  | AuthFailed (reason : String)
  | Heartbeat
  | Command (id : Nat) (cmd : CommandPayload)
  | Response (id : Nat) (result : CommandResult)
deriving DecidableEq, Repr

/-- Script steps (`server/src/state.rs`, `ScriptStep`). -/
inductive ScriptStep where
  | Shell (cmd : String) (args : List String)
  | Upload (local_path : String) (remote_path : String)
  | Download (remote_path : String) (browser_download : Option Bool)
  | UploadDir (local_path : String) (remote_path : String)
  | DownloadDir (remote_path : String) (browser_download : Option Bool)
deriving DecidableEq, Repr

/-- A script (`server/src/state.rs`, `ScriptGroup`). -/
structure ScriptGroup where
  id : Nat
  name : String
  steps : List ScriptStep
deriving DecidableEq, Repr

/-! ### Concurrent map model

`AppState.clients`, `AppState.results` and `AppState.active_executions`
are `DashMap`s.  A `DashMap` is modelled as an association list with at
most one binding per key; `insert` overwrites an existing binding in
place (this is the semantics of `DashMap::insert`), `remove` drops the
binding, `get` finds it. -/

/-- `DashMap::insert`: overwrite the binding of `k` if present, else append. -/
def dashmap_insert {α : Type} (store : List (Nat × α)) (k : Nat) (v : α) :
    List (Nat × α) :=
  if store.any (fun p => p.1 = k) then
    store.map (fun p => if p.1 = k then (k, v) else p)
  else
    store ++ [(k, v)]

/-- `DashMap::get`. -/
def dashmap_get {α : Type} (store : List (Nat × α)) (k : Nat) : Option α :=
  (store.find? (fun p => p.1 = k)).map (fun p => p.2)

/-- `DashMap::remove`. -/
def dashmap_remove {α : Type} (store : List (Nat × α)) (k : Nat) :
    List (Nat × α) :=
  store.filter (fun p => p.1 ≠ k)

/-- `DashMap::contains_key`. -/
def dashmap_contains {α : Type} (store : List (Nat × α)) (k : Nat) : Bool :=
  store.any (fun p => p.1 = k)

/-- Number of bindings a key holds in a store. -/
def countKey {α : Type} (store : List (Nat × α)) (k : Nat) : Nat :=
  (store.filter (fun p => p.1 = k)).length

/-- The inbound-loop handler for `Message::Response { id, result }`
(`handlers.rs`, `handle_socket` recv task): `state.results.insert(id, result)`. -/
def handle_response (results : List (Nat × CommandResult)) (id : Nat)
    (result : CommandResult) : List (Nat × CommandResult) :=
  dashmap_insert results id result

/-- `get_command_result` (`handlers.rs`): reads `state.results.get(&cmd_id)`
and does not mutate the store; returns the response body together with the
(unchanged) store. -/
def get_command_result (results : List (Nat × CommandResult)) (cmd_id : Nat) :
    Option CommandResult × List (Nat × CommandResult) :=
  (dashmap_get results cmd_id, results)

/-! ### Outbound channel and command dispatch -/

/-- State of one session's outbound `tokio::sync::mpsc` channel: its
capacity, current queue length, and whether the receiving half (the
send task of `handle_socket`) is still alive. -/
structure ChannelState where
  capacity : Nat
  queued : Nat
  receiverOpen : Bool
deriving DecidableEq, Repr

/-- Outcome of one `Sender::send(msg).await` call. -/
inductive MpscSend where
  | enqueued
  | suspendsOnFullQueue
  | errClosed
deriving DecidableEq, Repr

/-- Modelled from the documented semantics of `tokio::sync::mpsc::Sender::send`
(the `tokio` crate is an external dependency, not part of this repository's
sources): when the receiver has been dropped the call returns `Err(SendError)`;
when there is free capacity the message is enqueued and the call returns
immediately; when the channel is at capacity the call suspends until capacity
becomes available — a full queue is not an error. -/
def mpsc_send (ch : ChannelState) : MpscSend :=
  if ch.receiverOpen = false then MpscSend.errClosed
  else if ch.queued < ch.capacity then MpscSend.enqueued
  else MpscSend.suspendsOnFullQueue

/-- The outbound queue bound: `mpsc::channel::<Message>(100)`
(`handlers.rs`, `handle_socket`). -/
def outbound_queue_capacity : Nat := 100

/-- Outcome of the `send_command` handler (`handlers.rs`). -/
inductive SendCommandResult where
  | notFound
  | okCmdId (cmd_id : Nat)
  | failedToSend
  | suspendedOnFullQueue
deriving DecidableEq, Repr

/-- The coordinator state touched by `send_command`: the Result Store and
the uuid freshness counter. -/
structure SendState where
  results : List (Nat × CommandResult)
  uuidCtr : Nat
deriving DecidableEq, Repr

/-- `send_command` (`handlers.rs`): look the agent up in
`state.clients`; if absent answer `NOT_FOUND` at once; if present mint a
fresh `cmd_id` and `client.tx.send(msg).await` — which enqueues, errors
(receiver dropped) or suspends (queue full) per `mpsc_send`. -/
def send_command (clients : Nat → Option ChannelState) (agent : Nat)
    (st : SendState) : SendCommandResult × SendState :=
  match clients agent with
  | none => (SendCommandResult.notFound, st)
  | some ch =>
    let cmd_id := st.uuidCtr
    let st2 : SendState := { st with uuidCtr := st.uuidCtr + 1 }
    match mpsc_send ch with
    | MpscSend.enqueued => (SendCommandResult.okCmdId cmd_id, st2)
    | MpscSend.suspendsOnFullQueue => (SendCommandResult.suspendedOnFullQueue, st2)
    | MpscSend.errClosed => (SendCommandResult.failedToSend, st2)

/-! ### Bounded result polling

`run_script_task` waits for a step result with
`for _ in 0..60 { sleep(500ms); if let Some(result) = state.results.get(&cmd_id) ... }`.
`lookup t` is the content of `state.results.get(&cmd_id)` observed at the
`t`-th poll (0-based); the second component counts the polls performed. -/

/-- Poll interval of the wait loop, in milliseconds (`handlers.rs`,
`run_script_task`: `sleep(Duration::from_millis(500))`). -/
def poll_interval_ms : Nat := 500

/-- Maximum number of polls of the wait loop (`handlers.rs`,
`run_script_task`: `for _ in 0..60`). -/
def max_attempts : Nat := 60

/-- The bounded poll loop: up to `fuel` polls, returning the first result
observed together with the total number of polls performed. -/
def poll_for_result (lookup : Nat → Option CommandResult) :
    Nat → Nat → Option CommandResult × Nat
  | 0, polls => (none, polls)
  | fuel + 1, polls =>
    match lookup polls with
    | some r => (some r, polls + 1)
    | none => poll_for_result lookup fuel (polls + 1)

/-! ### Script Orchestrator (`handlers.rs`, `run_script_task`)

The execution log is a `Vec<String>` in the source; each entry is built by
one specific `format!` call.  The embedding keeps one constructor per
format string, carrying the formatted arguments. -/

/-- One log line of `run_script_task`, one constructor per `format!` site. -/
inductive LogEntry where
  | browserDownload (link : String)
  | stepStarted (n : Nat) (desc : String)
  | stepSetupFailed (n : Nat) (err : String)
  | stepSendFailed (n : Nat)
  | stepFailed (n : Nat) (err : String)
  | stepShellFailed (n : Nat) (exit_code : Int) (stderr : String)
  | stepCompletedOutput (n : Nat) (stdout : String)
  | stepCompletedResult (n : Nat) (res : CommandResult)
  | stepTimedOut (n : Nat)
  | clientDisconnected
deriving DecidableEq, Repr

/-- Whether a log line is a step-start entry (the
`format!("Step ... Started ...")` line pushed once per entered step). -/
def LogEntry.isStarted : LogEntry → Bool
  | LogEntry.stepStarted _ _ => true
  | _ => false

/-- Number of step-start entries in a log. -/
def startedCount (l : List LogEntry) : Nat :=
  (l.filter LogEntry.isStarted).length

/-- Environment one step of `run_script_task` runs against, fixing the
outcome of every effect the step performs: whether the agent is still in
`state.clients` when the step dispatches, whether `client.tx.send` succeeds,
whether `zip_directory` succeeds (consulted only by `UploadDir` steps), and
what `state.results.get(&cmd_id)` observes at each poll of the wait loop. -/
structure StepEnv where
  connected : Bool
  sendOk : Bool
  zipOk : Bool
  result : Nat → Option CommandResult

/-- Mutable state of the `run_script_task` loop: the log (the local `logs`
vector and the mirrored `progress.logs`), the progress cursor
`current_step`, the uuid freshness counter, the 0-based indices of steps
for which a `Message::Command` was handed to `client.tx.send`, and the
local `success` flag. -/
structure StepState where
  logs : List LogEntry
  current_step : Nat
  uuidCtr : Nat
  dispatched : List Nat
  success : Bool
deriving Repr

/-- The step description string (`handlers.rs`, the `step_desc` match). -/
def step_desc : ScriptStep → String
  | ScriptStep.Shell cmd args => "Shell: " ++ cmd ++ " " ++ String.intercalate " " args
  | ScriptStep.Upload lp rp => "Upload: " ++ lp ++ " -> " ++ rp
  | ScriptStep.Download rp _ => "Download: " ++ rp
  | ScriptStep.UploadDir lp rp => "UploadDir: " ++ lp ++ " -> " ++ rp
  | ScriptStep.DownloadDir rp _ => "DownloadDir: " ++ rp

/-- Resolution of one step into a command payload (`handlers.rs`, the
`cmd_payload_result` match of `run_script_task`).  `Download` and
`DownloadDir` steps mint a fresh upload id and, when `browser_download` is
set, push a `BROWSER_DOWNLOAD` log line; `UploadDir` fails when
`zip_directory` fails.  Urls carry the server host and the minted id the
way the source formats them (file-name components are kept abstract). -/
def resolve_step (e : StepEnv) (host : String) (st : StepState)
    (s : ScriptStep) : StepState × Except String CommandPayload :=
  match s with
  | ScriptStep.Shell cmd args =>
    (st, Except.ok (CommandPayload.ShellExec cmd args))
  | ScriptStep.Upload lp rp =>
    (st, Except.ok (CommandPayload.DownloadFile
      ("http://" ++ host ++ "/api/files/download/staging/" ++ lp) rp))
  | ScriptStep.Download rp bd =>
    let upload_id := st.uuidCtr
    let st := { st with uuidCtr := st.uuidCtr + 1 }
    let upload_url :=
      "http://" ++ host ++ "/api/files/client-upload/" ++ toString upload_id
    let st :=
      if bd.getD false then
        { st with logs := st.logs ++
            [LogEntry.browserDownload ("http://" ++ host ++
              "/api/files/download/client_data/" ++ toString upload_id ++ "/" ++ rp)] }
      else st
    (st, Except.ok (CommandPayload.UploadFile rp upload_url))
  | ScriptStep.UploadDir lp rp =>
    if e.zipOk then
      (st, Except.ok (CommandPayload.DownloadAndUnzip
        ("http://" ++ host ++ "/api/files/download/staging/" ++ lp ++ ".zip") rp))
    else
      (st, Except.error "Failed to zip directory")
  | ScriptStep.DownloadDir rp bd =>
    let upload_id := st.uuidCtr
    let st := { st with uuidCtr := st.uuidCtr + 1 }
    let upload_url :=
      "http://" ++ host ++ "/api/files/client-upload/" ++ toString upload_id
    let st :=
      if bd.getD false then
        { st with logs := st.logs ++
            [LogEntry.browserDownload ("http://" ++ host ++
              "/api/files/download/client_data/" ++ toString upload_id ++ "/" ++ rp ++ ".zip")] }
      else st
    (st, Except.ok (CommandPayload.ZipAndUpload rp upload_url))

/-- One iteration of the step loop of `run_script_task`, for 0-based step
index `i`.  Returns the updated state and whether the loop continues
(`false` = the source `break`s).  Mirrors the source order: update
`current_step`, resolve the payload, push the step-start log, handle a
resolution error, look the agent up, mint `cmd_id` and send, run the
bounded poll loop, classify the result, push the matching log lines. -/
def run_step (host : String) (e : StepEnv) (i : Nat) (s : ScriptStep)
    (st : StepState) : StepState × Bool :=
  let st := { st with current_step := i + 1 }
  let res := resolve_step e host st s
  let st := res.1
  let st := { st with logs := st.logs ++ [LogEntry.stepStarted (i + 1) (step_desc s)] }
  match res.2 with
  | Except.error msg =>
    ({ st with logs := st.logs ++ [LogEntry.stepSetupFailed (i + 1) msg], success := false }, false)
  | Except.ok _payload =>
    if e.connected then
      let st := { st with uuidCtr := st.uuidCtr + 1, dispatched := st.dispatched ++ [i] }
      if e.sendOk then
        match (poll_for_result e.result max_attempts 0).1 with
        | some (CommandResult.Error msg) =>
          ({ st with logs := st.logs ++ [LogEntry.stepFailed (i + 1) msg, LogEntry.stepTimedOut (i + 1)], success := false }, false)
        | some (CommandResult.ShellOutput stdout stderr exit_code) =>
          if exit_code ≠ 0 then
            ({ st with logs := st.logs ++ [LogEntry.stepShellFailed (i + 1) exit_code stderr, LogEntry.stepTimedOut (i + 1)], success := false }, false)
          else
            ({ st with logs := st.logs ++ [LogEntry.stepCompletedOutput (i + 1) stdout] }, true)
        | some r =>
          ({ st with logs := st.logs ++ [LogEntry.stepCompletedResult (i + 1) r] }, true)
        | none =>
          ({ st with logs := st.logs ++ [LogEntry.stepTimedOut (i + 1)], success := false }, false)
      else
        ({ st with logs := st.logs ++ [LogEntry.stepSendFailed (i + 1)], success := false }, false)
    else
      ({ st with logs := st.logs ++ [LogEntry.clientDisconnected], success := false }, false)

/-- The step loop of `run_script_task`: run the steps in order from 0-based
index `i`, stopping at the first step whose iteration `break`s. -/
def run_steps (host : String) (env : Nat → StepEnv) :
    List ScriptStep → Nat → StepState → StepState
  | [], _, st => st
  | s :: rest, i, st =>
    match run_step host (env i) i s st with
    | (st2, true) => run_steps host env rest (i + 1) st2
    | (st2, false) => st2

/-- Observable outcome of one `run_script_task` execution. -/
structure ScriptOutcome where
  logs : List LogEntry
  current_step : Nat
  total_steps : Nat
  status : String
  dispatched : List Nat
  uuidCtr : Nat
deriving Repr

/-- `run_script_task` (`handlers.rs`): initialize the progress record
(`current_step = 0`, `total_steps = steps.len()`, status `running`,
empty log), run the step loop, then set the terminal status from the
`success` flag: `completed` when all steps succeeded, else `failed`. -/
def run_script_task (host : String) (env : Nat → StepEnv)
    (script : ScriptGroup) (uuidCtr : Nat) : ScriptOutcome :=
  let st0 : StepState :=
    { logs := [], current_step := 0, uuidCtr := uuidCtr,
      dispatched := [], success := true }
  let stF := run_steps host env script.steps 0 st0
  { logs := stF.logs, current_step := stF.current_step,
    total_steps := script.steps.length,
    status := if stF.success then "completed" else "failed",
    dispatched := stF.dispatched, uuidCtr := stF.uuidCtr }

/-- The result of the bounded wait of a step, as `run_step` consumes it. -/
def poll_result (e : StepEnv) : Option CommandResult :=
  (poll_for_result e.result max_attempts 0).1

/-- Whether resolution of a step succeeds in env `e` (only `UploadDir`
can fail, when `zip_directory` fails). -/
def step_resolves (e : StepEnv) : ScriptStep → Bool
  | ScriptStep.UploadDir _ _ => e.zipOk
  | _ => true

/-- The orchestrator's result classification (`run_script_task`): a generic
error, or a shell result with non-zero exit code, is a step failure;
every other result kind is a step success. -/
def classify_success : CommandResult → Bool
  | CommandResult.Error _ => false
  | CommandResult.ShellOutput _ _ exit_code => exit_code = 0
  | _ => true

/-- Whether a step runs to success in env `e`: it resolves, the agent is
connected, the send succeeds, and the bounded wait observes a result
classified as success. -/
def step_succeeds (e : StepEnv) (s : ScriptStep) : Bool :=
  step_resolves e s && e.connected && e.sendOk &&
    (match poll_result e with
     | some r => classify_success r
     | none => false)

/-- Whether a step is dispatched and its observed result is a shell result
with non-zero exit code or a generic error result. -/
def step_shell_or_error_fails (e : StepEnv) (s : ScriptStep) : Bool :=
  step_resolves e s && e.connected && e.sendOk &&
    (match poll_result e with
     | some (CommandResult.Error _) => true
     | some (CommandResult.ShellOutput _ _ exit_code) => exit_code ≠ 0
     | _ => false)

/-! ### Group Fan-out (`handlers.rs`, `run_group_scripts`) -/

/-- The rows of the persistent store consulted by `run_group_scripts` for
one group: its `client_group_members` rows, its `group_scripts` rows, and
the `scripts` table. -/
structure GroupDb where
  members : List Nat
  scriptIds : List Nat
  scriptsTable : Nat → Option ScriptGroup

/-- Events of a group run, in the order the coordinator performs them for
one (member, script) pair: the `execution_history` insert, then the
`run_script_task` call for that history id. -/
inductive GroupEvent where
  | histCreated (history_id : Nat) (script_id : Nat) (client_id : Nat)
  | runStarted (history_id : Nat) (client_id : Nat) (script_id : Nat)
deriving DecidableEq, Repr

/-- HTTP-level outcome of `run_group_scripts`. -/
inductive GroupResponse where
  | ok
  | badRequestNoMembers
  | badRequestNoScripts
deriving DecidableEq, Repr

/-- Observable outcome of `run_group_scripts`: the response, the event
trace of the spawned per-member tasks (each member task runs its scripts
sequentially; the trace lists the members in row order, which is one
linearization of the concurrent member tasks), and the uuid counter. -/
structure GroupRunOutcome where
  response : GroupResponse
  trace : List GroupEvent
  uuidCtr : Nat
deriving Repr

/-- The body of one spawned member task: for each bound script in order,
mint a fresh `history_id`, insert the `execution_history` record (status
`running`), then call `run_script_task` for it. -/
def run_member_scripts (client_id : Nat) :
    List ScriptGroup → Nat → List GroupEvent × Nat
  | [], ctr => ([], ctr)
  | sc :: rest, ctr =>
    let hid := ctr
    let tail := run_member_scripts client_id rest (ctr + 1)
    (GroupEvent.histCreated hid sc.id client_id ::
     GroupEvent.runStarted hid client_id sc.id :: tail.1, tail.2)

/-- The member loop of `run_group_scripts`: a member absent from
`state.clients` is skipped (`continue`); a present member gets a spawned
task running all resolved scripts. -/
def run_group_members (registry : Nat → Bool) (scripts : List ScriptGroup) :
    List Nat → Nat → List GroupEvent × Nat
  | [], ctr => ([], ctr)
  | m :: rest, ctr =>
    if registry m then
      let mine := run_member_scripts m scripts ctr
      let tail := run_group_members registry scripts rest mine.2
      (mine.1 ++ tail.1, tail.2)
    else
      run_group_members registry scripts rest ctr

/-- `run_group_scripts` (`handlers.rs`): fail with 400 when the group has
no members or no bound scripts; resolve each bound script id against the
`scripts` table, silently skipping ids whose script row is missing
(`Ok(None) => continue`); then run the member loop. -/
def run_group_scripts (registry : Nat → Bool) (db : GroupDb) (ctr : Nat) :
    GroupRunOutcome :=
  if db.members.isEmpty then
    { response := GroupResponse.badRequestNoMembers, trace := [], uuidCtr := ctr }
  else if db.scriptIds.isEmpty then
    { response := GroupResponse.badRequestNoScripts, trace := [], uuidCtr := ctr }
  else
    let scripts := db.scriptIds.filterMap db.scriptsTable
    let res := run_group_members registry scripts db.members ctr
    { response := GroupResponse.ok, trace := res.1, uuidCtr := res.2 }

/-- The execution ids minted by a group run, in trace order. -/
def execIds (trace : List GroupEvent) : List Nat :=
  trace.filterMap (fun ev =>
    match ev with
    | GroupEvent.histCreated hid _ _ => some hid
    | _ => none)

/-- Structural well-pairing of a group trace: the trace is a sequence of
adjacent pairs, each a history-record insert immediately followed by the
start of the run it belongs to, agreeing on history id, script and member. -/
def wellPaired : List GroupEvent → Bool
  | [] => true
  | GroupEvent.histCreated hid sid cid :: GroupEvent.runStarted hid2 cid2 sid2 :: rest =>
    hid = hid2 && cid = cid2 && sid = sid2 && wellPaired rest
  | _ => false

/-! ### Connection handshake (`handlers.rs`, `handle_socket`) -/

/-- What the first `receiver.next().await` of `handle_socket` yields:
the stream is exhausted, a transport receive error, or a frame together
with its `parse_message` outcome. -/
inductive FirstEvent where
  | recvNone
  | recvErr
  | frame (parsed : Except String Message)

/-- Outcome of the handshake phase of `handle_socket`: either the
function returns before creating any state (`closed`, with the messages
written to the socket on the way out), or the agent is authenticated and
`state.clients.insert(client_id, ...)` runs (`registered`). -/
inductive AuthOutcome where
  | closed (sent : List Message)
  | registered (client_id : Nat) (sent : List Message)
deriving DecidableEq, Repr

/-- Whether a handshake outcome created a registry entry. -/
def AuthOutcome.createsEntry : AuthOutcome → Bool
  | AuthOutcome.closed _ => false
  | AuthOutcome.registered _ _ => true

/-- The handshake phase of `handle_socket` (`handlers.rs`): wait for the
first message; on stream end or receive error, return; on a frame, match
`parse_message`: a `Register` whose token differs from
`state.config.auth_token` gets `AuthFailed("Invalid token")` and the
function returns; a matching token gets `AuthSuccess`, the client row is
upserted, and the registry entry is created; every other parse outcome
(parse failure or a non-`Register` message) falls to the `_` arm and the
function returns with nothing sent. -/
def handle_socket_auth (auth_token : String) (ev : FirstEvent) : AuthOutcome :=
  match ev with
  | FirstEvent.recvNone => AuthOutcome.closed []
  | FirstEvent.recvErr => AuthOutcome.closed []
  | FirstEvent.frame (Except.error _) => AuthOutcome.closed []
  | FirstEvent.frame (Except.ok m) =>
    match m with
    | Message.Register client_id token _ _ _ _ _ =>
      if token ≠ auth_token then
        AuthOutcome.closed [Message.AuthFailed "Invalid token"]
      else
        AuthOutcome.registered client_id [Message.AuthSuccess]
    | _ => AuthOutcome.closed []

/-- Whether a parsed message is a `Register` message. -/
def Message.isRegister : Message → Bool
  | Message.Register _ _ _ _ _ _ _ => true
  | _ => false

/-! ### Forced eviction (`handlers.rs`, `delete_client`) -/

/-- In-memory progress record (`state.rs`, `ExecutionProgress`). -/
structure ExecutionProgress where
  execution_id : Nat
  script_name : String
  client_hostname : String
  status : String
  logs : List LogEntry
  current_step : Nat
  total_steps : Nat
deriving DecidableEq, Repr

/-- The coordinator state touched (or readable) around `delete_client`:
the three in-memory maps and the two persistent tables the handler
addresses. -/
structure AppState where
  clients : List (Nat × ChannelState)
  results : List (Nat × CommandResult)
  active_executions : List (Nat × ExecutionProgress)
  db_clients : List Nat
  db_group_members : List (Nat × Nat)
deriving Repr

/-- `delete_client` (`handlers.rs`): remove the agent from
`state.clients`, delete its `client_group_members` rows, delete its
`clients` row.  Nothing else is touched. -/
def delete_client (st : AppState) (id : Nat) : AppState :=
  { st with
    clients := dashmap_remove st.clients id,
    db_group_members := st.db_group_members.filter (fun p => p.2 ≠ id),
    db_clients := st.db_clients.filter (fun c => c ≠ id) }

/-! ## Helper lemmas -/

theorem startedCount_append (l1 l2 : List LogEntry) :
    startedCount (l1 ++ l2) = startedCount l1 + startedCount l2 := by
  simp [startedCount, List.filter_append]

theorem startedCount_singleton (x : LogEntry) :
    startedCount [x] = if x.isStarted then 1 else 0 := by
  by_cases h : x.isStarted = true <;> simp [startedCount, h]

theorem startedCount_nil : startedCount [] = 0 := rfl

theorem startedCount_cons (x : LogEntry) (l : List LogEntry) :
    startedCount (x :: l) = (if x.isStarted then 1 else 0) + startedCount l := by
  by_cases h : x.isStarted = true <;> simp [startedCount, List.filter_cons, h] <;> omega

theorem dashmap_get_remove_self {α : Type} (store : List (Nat × α)) (k : Nat) :
    dashmap_get (dashmap_remove store k) k = none := by
  induction store with
  | nil => rfl
  | cons p rest ih =>
    by_cases h : p.1 = k
    · simpa [dashmap_remove, dashmap_get, h] using ih
    · simpa [dashmap_remove, dashmap_get, h] using ih

theorem countKey_cons {α : Type} (x : Nat × α) (l : List (Nat × α)) (k2 : Nat) :
    countKey (x :: l) k2 = (if x.1 = k2 then 1 else 0) + countKey l k2 := by
  simp only [countKey, List.filter_cons]
  by_cases h : x.1 = k2 <;> simp [h] <;> omega

theorem countKey_map_overwrite {α : Type} (store : List (Nat × α)) (k k2 : Nat) (v : α) :
    countKey (store.map (fun p => if p.1 = k then (k, v) else p)) k2 =
    countKey store k2 := by
  induction store with
  | nil => rfl
  | cons p rest ih =>
    simp only [List.map_cons, countKey_cons, ih]
    by_cases h : p.1 = k
    · simp [h]
    · simp [h]

theorem countKey_append {α : Type} (l1 l2 : List (Nat × α)) (k : Nat) :
    countKey (l1 ++ l2) k = countKey l1 k + countKey l2 k := by
  simp [countKey, List.filter_append]

theorem countKey_zero_of_not_any {α : Type} (store : List (Nat × α)) (k : Nat)
    (h : store.any (fun p => p.1 = k) = false) : countKey store k = 0 := by
  induction store with
  | nil => rfl
  | cons p rest ih =>
    simp only [List.any_cons, Bool.or_eq_false_iff] at h
    have hp : ¬ p.1 = k := by simpa using h.1
    rw [countKey_cons, if_neg hp, ih h.2]

theorem countKey_pos_of_any {α : Type} (store : List (Nat × α)) (k : Nat)
    (h : store.any (fun p => p.1 = k) = true) : 0 < countKey store k := by
  rcases List.any_eq_true.mp h with ⟨p, hp, hk⟩
  simp only [countKey, List.length_pos]
  intro hemp
  exact absurd hk (by simpa using List.filter_eq_nil_iff.mp hemp p hp)

theorem countKey_insert_self {α : Type} (store : List (Nat × α)) (k : Nat) (v : α)
    (hinv : countKey store k ≤ 1) :
    countKey (dashmap_insert store k v) k = 1 := by
  unfold dashmap_insert
  by_cases h : store.any (fun p => p.1 = k) = true
  · rw [if_pos h, countKey_map_overwrite]
    have := countKey_pos_of_any store k h
    omega
  · rw [if_neg h, countKey_append, countKey_zero_of_not_any store k (Bool.eq_false_iff.mpr h)]
    simp [countKey, List.filter_cons]

theorem countKey_insert_other {α : Type} (store : List (Nat × α)) (k k2 : Nat) (v : α)
    (hne : k2 ≠ k) :
    countKey (dashmap_insert store k v) k2 = countKey store k2 := by
  unfold dashmap_insert
  by_cases h : store.any (fun p => p.1 = k) = true
  · rw [if_pos h, countKey_map_overwrite]
  · rw [if_neg h, countKey_append]
    have : ¬ k = k2 := fun hk => hne hk.symm
    simp [countKey, List.filter_cons, this]

theorem find?_map_overwrite {α : Type} (store : List (Nat × α)) (k : Nat) (v : α)
    (h : store.any (fun p => p.1 = k) = true) :
    (store.map (fun p => if p.1 = k then (k, v) else p)).find?
      (fun p => p.1 = k) = some (k, v) := by
  induction store with
  | nil => simp at h
  | cons p rest ih =>
    by_cases hp : p.1 = k
    · simp [List.find?_cons, hp]
    · have h2 : rest.any (fun p => p.1 = k) = true := by
        simpa [List.any_cons, hp] using h
      simp [List.find?_cons, hp, ih h2]

theorem find?_none_of_not_any {α : Type} (store : List (Nat × α)) (k : Nat)
    (h : store.any (fun p => p.1 = k) = false) :
    store.find? (fun p => p.1 = k) = none := by
  induction store with
  | nil => rfl
  | cons p rest ih =>
    simp only [List.any_cons, Bool.or_eq_false_iff] at h
    have hp : ¬ p.1 = k := by simpa using h.1
    simp [List.find?_cons, hp, ih h.2]

theorem find?_append_single {α : Type} (store : List (Nat × α)) (k : Nat) (v : α)
    (h : store.find? (fun p => p.1 = k) = none) :
    (store ++ [(k, v)]).find? (fun p => p.1 = k) = some (k, v) := by
  induction store with
  | nil => simp [List.find?_cons]
  | cons p rest ih =>
    by_cases hp : p.1 = k
    · rw [List.find?_cons_of_pos rest (by simp [hp])] at h
      exact (Option.some_ne_none _ h).elim
    · rw [List.find?_cons_of_neg rest (by simp [hp])] at h
      rw [List.cons_append, List.find?_cons_of_neg _ (by simp [hp])]
      exact ih h

theorem dashmap_get_insert_self {α : Type} (store : List (Nat × α)) (k : Nat) (v : α) :
    dashmap_get (dashmap_insert store k v) k = some v := by
  unfold dashmap_insert
  by_cases h : store.any (fun p => p.1 = k) = true
  · rw [if_pos h]
    simp [dashmap_get, find?_map_overwrite store k v h]
  · rw [if_neg h]
    have hn := find?_none_of_not_any store k (Bool.eq_false_iff.mpr h)
    simp [dashmap_get, find?_append_single store k v hn]

theorem poll_for_result_none (lookup : Nat → Option CommandResult)
    (h : ∀ t, lookup t = none) (n polls : Nat) :
    poll_for_result lookup n polls = (none, polls + n) := by
  induction n generalizing polls with
  | zero => simp [poll_for_result]
  | succ n ih =>
    simp only [poll_for_result, h polls]
    rw [ih (polls + 1)]
    simp only [Prod.mk.injEq, true_and]
    omega

theorem resolve_step_fields (e : StepEnv) (host : String) (st : StepState)
    (s : ScriptStep) :
    (resolve_step e host st s).1.dispatched = st.dispatched ∧
    (resolve_step e host st s).1.success = st.success ∧
    (resolve_step e host st s).1.current_step = st.current_step ∧
    startedCount (resolve_step e host st s).1.logs = startedCount st.logs := by
  cases s with
  | Shell cmd args => simp [resolve_step]
  | Upload lp rp => simp [resolve_step]
  | Download rp bd =>
    by_cases hb : bd.getD false = true <;>
      simp [resolve_step, hb, startedCount_append, startedCount, LogEntry.isStarted]
  | UploadDir lp rp =>
    by_cases hz : e.zipOk = true <;> simp [resolve_step, hz]
  | DownloadDir rp bd =>
    by_cases hb : bd.getD false = true <;>
      simp [resolve_step, hb, startedCount_append, startedCount, LogEntry.isStarted]

theorem resolve_step_ok (e : StepEnv) (host : String) (st : StepState)
    (s : ScriptStep) (h : step_resolves e s = true) :
    ∃ p, (resolve_step e host st s).2 = Except.ok p := by
  cases s with
  | Shell cmd args => exact ⟨_, rfl⟩
  | Upload lp rp => exact ⟨_, rfl⟩
  | Download rp bd => exact ⟨_, rfl⟩
  | UploadDir lp rp =>
    have hz : e.zipOk = true := by simpa [step_resolves] using h
    refine ⟨CommandPayload.DownloadAndUnzip
      ("http://" ++ host ++ "/api/files/download/staging/" ++ lp ++ ".zip") rp, ?_⟩
    simp [resolve_step, hz]
  | DownloadDir rp bd => exact ⟨_, rfl⟩

theorem run_step_succeeds_spec (host : String) (e : StepEnv) (i : Nat)
    (s : ScriptStep) (st : StepState) (h : step_succeeds e s = true) :
    (run_step host e i s st).2 = true ∧
    (run_step host e i s st).1.success = st.success ∧
    (run_step host e i s st).1.current_step = i + 1 ∧
    (run_step host e i s st).1.dispatched = st.dispatched ++ [i] ∧
    startedCount (run_step host e i s st).1.logs = startedCount st.logs + 1 := by
  unfold step_succeeds at h
  simp only [Bool.and_eq_true] at h
  obtain ⟨⟨⟨h1, h2⟩, h3⟩, h4⟩ := h
  obtain ⟨hf1, hf2, hf3, hf4⟩ := resolve_step_fields e host { st with current_step := i + 1 } s
  obtain ⟨p, hok⟩ := resolve_step_ok e host { st with current_step := i + 1 } s h1
  rcases hp : poll_result e with _ | r
  · rw [hp] at h4
    cases h4
  · rw [hp] at h4
    unfold poll_result at hp
    cases r with
    | Error msg => simp [classify_success] at h4
    | ShellOutput stdout stderr exit_code =>
      have hz : exit_code = 0 := by simpa [classify_success] using h4
      subst hz
      unfold run_step
      simp [hok, h2, h3, hp, hf1, hf2, hf3, hf4, startedCount_append, startedCount_singleton,
        startedCount_cons, startedCount_nil, LogEntry.isStarted]
    | DirChanged x =>
      unfold run_step
      simp [hok, h2, h3, hp, hf1, hf2, hf3, hf4, startedCount_append, startedCount_singleton,
        startedCount_cons, startedCount_nil, LogEntry.isStarted]
    | FileList x =>
      unfold run_step
      simp [hok, h2, h3, hp, hf1, hf2, hf3, hf4, startedCount_append, startedCount_singleton,
        startedCount_cons, startedCount_nil, LogEntry.isStarted]
    | FileContent x =>
      unfold run_step
      simp [hok, h2, h3, hp, hf1, hf2, hf3, hf4, startedCount_append, startedCount_singleton,
        startedCount_cons, startedCount_nil, LogEntry.isStarted]
    | HardwareInfoRes x =>
      unfold run_step
      simp [hok, h2, h3, hp, hf1, hf2, hf3, hf4, startedCount_append, startedCount_singleton,
        startedCount_cons, startedCount_nil, LogEntry.isStarted]
    | Success x =>
      unfold run_step
      simp [hok, h2, h3, hp, hf1, hf2, hf3, hf4, startedCount_append, startedCount_singleton,
        startedCount_cons, startedCount_nil, LogEntry.isStarted]

theorem run_step_shell_error_spec (host : String) (e : StepEnv) (i : Nat)
    (s : ScriptStep) (st : StepState)
    (h : step_shell_or_error_fails e s = true) :
    (run_step host e i s st).2 = false ∧
    (run_step host e i s st).1.success = false ∧
    (run_step host e i s st).1.current_step = i + 1 ∧
    (run_step host e i s st).1.dispatched = st.dispatched ++ [i] ∧
    startedCount (run_step host e i s st).1.logs = startedCount st.logs + 1 := by
  unfold step_shell_or_error_fails at h
  simp only [Bool.and_eq_true] at h
  obtain ⟨⟨⟨h1, h2⟩, h3⟩, h4⟩ := h
  obtain ⟨hf1, hf2, hf3, hf4⟩ := resolve_step_fields e host { st with current_step := i + 1 } s
  obtain ⟨p, hok⟩ := resolve_step_ok e host { st with current_step := i + 1 } s h1
  rcases hp : poll_result e with _ | r
  · rw [hp] at h4
    cases h4
  · rw [hp] at h4
    unfold poll_result at hp
    cases r with
    | Error msg =>
      unfold run_step
      simp [hok, h2, h3, hp, hf1, hf2, hf3, hf4, startedCount_append, startedCount_singleton,
        startedCount_cons, startedCount_nil, LogEntry.isStarted]
    | ShellOutput stdout stderr exit_code =>
      have hz : exit_code ≠ 0 := by simpa using h4
      unfold run_step
      simp [hok, h2, h3, hp, hz, hf1, hf2, hf3, hf4, startedCount_append, startedCount_singleton,
        startedCount_cons, startedCount_nil, LogEntry.isStarted]
    | DirChanged x => cases h4
    | FileList x => cases h4
    | FileContent x => cases h4
    | HardwareInfoRes x => cases h4
    | Success x => cases h4

theorem run_steps_all_succeed (host : String) (env : Nat → StepEnv)
    (steps : List ScriptStep) : ∀ (i : Nat) (st : StepState),
    (∀ j s, steps.get? j = some s → step_succeeds (env (i + j)) s = true) →
    (run_steps host env steps i st).success = st.success ∧
    (run_steps host env steps i st).current_step =
      (if steps.isEmpty then st.current_step else i + steps.length) ∧
    startedCount (run_steps host env steps i st).logs =
      startedCount st.logs + steps.length ∧
    (run_steps host env steps i st).dispatched =
      st.dispatched ++ List.range' i steps.length := by
  induction steps with
  | nil =>
    intro i st h
    simp [run_steps, List.range']
  | cons s rest ih =>
    intro i st h
    have h0 : step_succeeds (env i) s = true := by simpa using h 0 s rfl
    obtain ⟨hcont, hsucc, hcur, hdisp, hlogs⟩ := run_step_succeeds_spec host (env i) i s st h0
    rcases hrr : run_step host (env i) i s st with ⟨st2, b⟩
    rw [hrr] at hcont hsucc hcur hdisp hlogs
    subst hcont
    have hstep : run_steps host env (s :: rest) i st = run_steps host env rest (i + 1) st2 := by
      simp only [run_steps, hrr]
    have hshift : ∀ j s2, rest.get? j = some s2 →
        step_succeeds (env (i + 1 + j)) s2 = true := by
      intro j s2 hj
      have e1 : i + 1 + j = i + (j + 1) := by omega
      rw [e1]
      exact h (j + 1) s2 (by simpa using hj)
    obtain ⟨ih1, ih2, ih3, ih4⟩ := ih (i + 1) st2 hshift
    rw [hstep]
    refine ⟨by rw [ih1, hsucc], ?_, ?_, ?_⟩
    · rw [ih2]
      rcases rest with _ | ⟨r, rs⟩
      · simpa [run_steps] using hcur
      · simp only [List.isEmpty_cons, List.length_cons, Bool.false_eq_true, if_false]
        omega
    · rw [ih3, hlogs]
      simp only [List.length_cons]
      omega
    · rw [ih4, hdisp, List.append_assoc, List.length_cons]
      have hr : List.range' i (rest.length + 1) = i :: List.range' (i + 1) rest.length :=
        List.range'_succ i rest.length 1
      rw [hr]
      simp

theorem run_steps_fails_at (host : String) (env : Nat → StepEnv) :
    ∀ (m : Nat) (steps : List ScriptStep) (i : Nat) (st : StepState)
      (sm : ScriptStep),
    steps.get? m = some sm →
    (∀ j s2, j < m → steps.get? j = some s2 → step_succeeds (env (i + j)) s2 = true) →
    step_shell_or_error_fails (env (i + m)) sm = true →
    (run_steps host env steps i st).success = false ∧
    startedCount (run_steps host env steps i st).logs =
      startedCount st.logs + (m + 1) ∧
    (run_steps host env steps i st).dispatched =
      st.dispatched ++ List.range' i (m + 1) := by
  intro m
  induction m with
  | zero =>
    intro steps i st sm hm hpre hf
    rcases steps with _ | ⟨s0, rest⟩
    · simp at hm
    · have hs0 : s0 = sm := by simpa using hm
      subst hs0
      rw [show i + 0 = i from rfl] at hf
      obtain ⟨hcont, hsucc, hcur, hdisp, hlogs⟩ := run_step_shell_error_spec host (env i) i s0 st hf
      rcases hrr : run_step host (env i) i s0 st with ⟨st2, b⟩
      rw [hrr] at hcont hsucc hcur hdisp hlogs
      subst hcont
      have hstep : run_steps host env (s0 :: rest) i st = st2 := by
        simp only [run_steps, hrr]
      rw [hstep]
      refine ⟨hsucc, by rw [hlogs], ?_⟩
      rw [hdisp]
      rfl
  | succ m ih =>
    intro steps i st sm hm hpre hf
    rcases steps with _ | ⟨s0, rest⟩
    · simp at hm
    · have h0 : step_succeeds (env i) s0 = true := by
        simpa using hpre 0 s0 (Nat.succ_pos m) rfl
      obtain ⟨hcont, hsucc, hcur, hdisp, hlogs⟩ := run_step_succeeds_spec host (env i) i s0 st h0
      rcases hrr : run_step host (env i) i s0 st with ⟨st2, b⟩
      rw [hrr] at hcont hsucc hcur hdisp hlogs
      subst hcont
      have hstep : run_steps host env (s0 :: rest) i st = run_steps host env rest (i + 1) st2 := by
        simp only [run_steps, hrr]
      have hm2 : rest.get? m = some sm := by simpa using hm
      have hpre2 : ∀ j s2, j < m → rest.get? j = some s2 →
          step_succeeds (env (i + 1 + j)) s2 = true := by
        intro j s2 hj hjg
        have e1 : i + 1 + j = i + (j + 1) := by omega
        rw [e1]
        exact hpre (j + 1) s2 (by omega) (by simpa using hjg)
      have hf2 : step_shell_or_error_fails (env (i + 1 + m)) sm = true := by
        have e1 : i + 1 + m = i + (m + 1) := by omega
        rw [e1]
        exact hf
      obtain ⟨ih1, ih2, ih3⟩ := ih rest (i + 1) st2 sm hm2 hpre2 hf2
      rw [hstep]
      refine ⟨ih1, ?_, ?_⟩
      · rw [ih2, hlogs]
        omega
      · rw [ih3, hdisp, List.append_assoc]
        have hr : List.range' i (m + 1 + 1) = i :: List.range' (i + 1) (m + 1) :=
          List.range'_succ i (m + 1) 1
        rw [hr]
        simp

theorem wellPaired_append : ∀ (l1 : List GroupEvent), wellPaired l1 = true →
    ∀ l2, wellPaired l2 = true → wellPaired (l1 ++ l2) = true
  | [], _, l2, h2 => by simpa
  | [e], h1, _, _ => by cases e <;> simp [wellPaired] at h1
  | GroupEvent.histCreated hid sid cid :: GroupEvent.runStarted hid2 cid2 sid2 :: rest,
      h1, l2, h2 => by
    simp only [wellPaired, Bool.and_eq_true, decide_eq_true_eq] at h1
    obtain ⟨⟨⟨e1, e2⟩, e3⟩, hrest⟩ := h1
    simp only [List.cons_append, wellPaired, Bool.and_eq_true, decide_eq_true_eq]
    exact ⟨⟨⟨e1, e2⟩, e3⟩, wellPaired_append rest hrest l2 h2⟩
  | GroupEvent.histCreated _ _ _ :: GroupEvent.histCreated _ _ _ :: _, h1, _, _ => by
    simp [wellPaired] at h1
  | GroupEvent.runStarted _ _ _ :: _ :: _, h1, _, _ => by
    simp [wellPaired] at h1

theorem execIds_append (l1 l2 : List GroupEvent) :
    execIds (l1 ++ l2) = execIds l1 ++ execIds l2 := by
  simp [execIds, List.filterMap_append]

theorem length_filterMap_all_some {α β : Type} (f : α → Option β) :
    ∀ (l : List α), (∀ a ∈ l, (f a).isSome) → (l.filterMap f).length = l.length := by
  intro l
  induction l with
  | nil => simp
  | cons a rest ih =>
    intro h
    rcases hfa : f a with _ | b
    · exact absurd (h a (by simp)) (by simp [hfa])
    · simp only [List.filterMap_cons, hfa, List.length_cons]
      rw [ih (fun x hx => h x (by simp [hx]))]

theorem run_member_scripts_spec (cid : Nat) :
    ∀ (scripts : List ScriptGroup) (ctr : Nat),
    (run_member_scripts cid scripts ctr).2 = ctr + scripts.length ∧
    execIds (run_member_scripts cid scripts ctr).1 = List.range' ctr scripts.length ∧
    wellPaired (run_member_scripts cid scripts ctr).1 = true ∧
    (∀ hid c sid2, GroupEvent.runStarted hid c sid2 ∈
      (run_member_scripts cid scripts ctr).1 → c = cid) := by
  intro scripts
  induction scripts with
  | nil =>
    intro ctr
    simp [run_member_scripts, execIds, wellPaired]
  | cons sc rest ih =>
    intro ctr
    obtain ⟨ih1, ih2, ih3, ih4⟩ := ih (ctr + 1)
    refine ⟨?_, ?_, ?_, ?_⟩
    · simp only [run_member_scripts, ih1, List.length_cons]
      omega
    · simp only [run_member_scripts, execIds, List.filterMap_cons]
      simp only [execIds] at ih2
      rw [ih2, List.length_cons]
      have hr : List.range' ctr (rest.length + 1) = ctr :: List.range' (ctr + 1) rest.length :=
        List.range'_succ ctr rest.length 1
      rw [hr]
    · simp [run_member_scripts, wellPaired, ih3]
    · intro hid c sid2 hmem
      simp only [run_member_scripts, List.mem_cons] at hmem
      rcases hmem with h | h | h
      · cases h
      · cases h
        rfl
      · exact ih4 hid c sid2 h

theorem run_group_members_spec (registry : Nat → Bool) (scripts : List ScriptGroup) :
    ∀ (ms : List Nat) (ctr : Nat),
    (run_group_members registry scripts ms ctr).2 =
      ctr + (ms.filter registry).length * scripts.length ∧
    execIds (run_group_members registry scripts ms ctr).1 =
      List.range' ctr ((ms.filter registry).length * scripts.length) ∧
    wellPaired (run_group_members registry scripts ms ctr).1 = true ∧
    (∀ hid c sid2, GroupEvent.runStarted hid c sid2 ∈
      (run_group_members registry scripts ms ctr).1 → registry c = true) := by
  intro ms
  induction ms with
  | nil =>
    intro ctr
    simp [run_group_members, execIds, wellPaired]
  | cons m rest ih =>
    intro ctr
    by_cases hr : registry m
    · obtain ⟨m1, m2, m3, m4⟩ := run_member_scripts_spec m scripts ctr
      obtain ⟨i1, i2, i3, i4⟩ := ih (ctr + scripts.length)
      have hflt : ((m :: rest).filter registry).length =
          (rest.filter registry).length + 1 := by
        simp [List.filter_cons, hr]
      have hmul : ((m :: rest).filter registry).length * scripts.length =
          scripts.length + (rest.filter registry).length * scripts.length := by
        rw [hflt]
        ring
      refine ⟨?_, ?_, ?_, ?_⟩
      · simp only [run_group_members, hr, if_true, m1, i1, hmul]
        omega
      · simp only [run_group_members, hr, if_true, execIds_append, m1, i1, i2, m2, hmul]
        have hra : List.range' ctr scripts.length ++
            List.range' (ctr + scripts.length) ((rest.filter registry).length * scripts.length) =
            List.range' ctr ((rest.filter registry).length * scripts.length + scripts.length) :=
          List.range'_append_1 ctr scripts.length
            ((rest.filter registry).length * scripts.length)
        rw [hra]
        congr 1
        omega
      · simp only [run_group_members, hr, if_true, m1]
        exact wellPaired_append _ m3 _ i3
      · intro hid c sid2 hmem
        simp only [run_group_members, hr, if_true, m1, List.mem_append] at hmem
        rcases hmem with h | h
        · have := m4 hid c sid2 h
          subst this
          exact hr
        · exact i4 hid c sid2 h
    · obtain ⟨i1, i2, i3, i4⟩ := ih ctr
      have hflt : ((m :: rest).filter registry).length =
          (rest.filter registry).length := by
        simp [List.filter_cons, hr]
      have hun : run_group_members registry scripts (m :: rest) ctr =
          run_group_members registry scripts rest ctr := by
        simp only [run_group_members]
        rw [if_neg hr]
      rw [hun, hflt]
      exact ⟨i1, i2, i3, i4⟩

/-! ## Claim theorems -/

/-- Claim C1: when steps before `k` succeed and step `k` (1-based) yields
a shell result with non-zero exit code or a generic error result, the
execution log holds exactly `k` step-start entries, no command is
dispatched for any step after `k`, and the final status is `failed`. -/
theorem C1_failing_step_stops_execution (host : String) (env : Nat → StepEnv)
    (script : ScriptGroup) (ctr k : Nat) (sm : ScriptStep)
    (hk : 1 ≤ k)
    (hm : script.steps.get? (k - 1) = some sm)
    (hpre : ∀ j s2, j < k - 1 → script.steps.get? j = some s2 →
      step_succeeds (env j) s2 = true)
    (hf : step_shell_or_error_fails (env (k - 1)) sm = true) :
    startedCount (run_script_task host env script ctr).logs = k ∧
    (∀ j, j ∈ (run_script_task host env script ctr).dispatched → j < k) ∧
    (run_script_task host env script ctr).status = "failed" := by
  have hpre0 : ∀ j s2, j < k - 1 → script.steps.get? j = some s2 →
      step_succeeds (env (0 + j)) s2 = true := by
    intro j s2 hj hg
    simpa using hpre j s2 hj hg
  have hf0 : step_shell_or_error_fails (env (0 + (k - 1))) sm = true := by
    simpa using hf
  obtain ⟨h1, h2, h3⟩ := run_steps_fails_at host env (k - 1)
    script.steps 0 ⟨[], 0, ctr, [], true⟩ sm hm hpre0 hf0
  have hst : (run_script_task host env script ctr).status =
      (if (run_steps host env script.steps 0 ⟨[], 0, ctr, [], true⟩).success
        then "completed" else "failed") := rfl
  have hlg : (run_script_task host env script ctr).logs =
      (run_steps host env script.steps 0 ⟨[], 0, ctr, [], true⟩).logs := rfl
  have hdp : (run_script_task host env script ctr).dispatched =
      (run_steps host env script.steps 0 ⟨[], 0, ctr, [], true⟩).dispatched := rfl
  refine ⟨?_, ?_, ?_⟩
  · rw [hlg, h2]
    have hnil : startedCount (⟨[], 0, ctr, [], true⟩ : StepState).logs = 0 := rfl
    rw [hnil]
    omega
  · intro j hj
    rw [hdp, h3] at hj
    have hj2 : j ∈ List.range' 0 (k - 1 + 1) := by simpa using hj
    have := List.mem_range'_1.mp hj2
    omega
  · rw [hst, h1]
    simp

/-- Witness for C1: a two-step shell script whose second step exits 1. -/
theorem C1_failing_step_stops_execution_witness :
    startedCount (run_script_task "h"
      (fun i => ⟨true, true, true,
        fun _ => some (CommandResult.ShellOutput "" "" (if i = 0 then 0 else 1))⟩)
      ⟨5, "s", [ScriptStep.Shell "echo" ["hi"], ScriptStep.Shell "false" []]⟩ 0).logs = 2 ∧
    (∀ j, j ∈ (run_script_task "h"
      (fun i => ⟨true, true, true,
        fun _ => some (CommandResult.ShellOutput "" "" (if i = 0 then 0 else 1))⟩)
      ⟨5, "s", [ScriptStep.Shell "echo" ["hi"], ScriptStep.Shell "false" []]⟩ 0).dispatched →
      j < 2) ∧
    (run_script_task "h"
      (fun i => ⟨true, true, true,
        fun _ => some (CommandResult.ShellOutput "" "" (if i = 0 then 0 else 1))⟩)
      ⟨5, "s", [ScriptStep.Shell "echo" ["hi"], ScriptStep.Shell "false" []]⟩ 0).status = "failed" :=
  C1_failing_step_stops_execution "h"
    (fun i => ⟨true, true, true,
      fun _ => some (CommandResult.ShellOutput "" "" (if i = 0 then 0 else 1))⟩)
    ⟨5, "s", [ScriptStep.Shell "echo" ["hi"], ScriptStep.Shell "false" []]⟩ 0 2
    (ScriptStep.Shell "false" []) (by omega) rfl
    (by
      intro j s2 hj hg
      have hj0 : j = 0 := by omega
      subst hj0
      simp only [List.get?] at hg
      cases hg
      decide)
    (by decide)

/-- Claim C8: when every step of a script succeeds, the execution ends
with `current_step == total_steps == N` and final status `completed`. -/
theorem C8_all_steps_succeed_completes (host : String) (env : Nat → StepEnv)
    (script : ScriptGroup) (ctr : Nat)
    (h : ∀ j s2, script.steps.get? j = some s2 → step_succeeds (env j) s2 = true) :
    (run_script_task host env script ctr).current_step =
      (run_script_task host env script ctr).total_steps ∧
    (run_script_task host env script ctr).total_steps = script.steps.length ∧
    (run_script_task host env script ctr).status = "completed" := by
  have h0 : ∀ j s2, script.steps.get? j = some s2 →
      step_succeeds (env (0 + j)) s2 = true := by
    intro j s2 hg
    simpa using h j s2 hg
  obtain ⟨h1, h2, h3, h4⟩ :=
    run_steps_all_succeed host env script.steps 0 ⟨[], 0, ctr, [], true⟩ h0
  have hst : (run_script_task host env script ctr).status =
      (if (run_steps host env script.steps 0 ⟨[], 0, ctr, [], true⟩).success
        then "completed" else "failed") := rfl
  have hcs : (run_script_task host env script ctr).current_step =
      (run_steps host env script.steps 0 ⟨[], 0, ctr, [], true⟩).current_step := rfl
  have htt : (run_script_task host env script ctr).total_steps =
      script.steps.length := rfl
  refine ⟨?_, htt, ?_⟩
  · rw [hcs, h2, htt]
    by_cases he : script.steps.isEmpty
    · have hemp : script.steps = [] := List.isEmpty_iff.mp he
      simp [he, hemp]
    · simp [he]
  · rw [hst, h1]
    simp

/-- Witness for C8: a one-step script whose step succeeds. -/
theorem C8_all_steps_succeed_completes_witness :
    (run_script_task "h"
      (fun _ => ⟨true, true, true, fun _ => some (CommandResult.Success "ok")⟩)
      ⟨5, "s", [ScriptStep.Shell "a" []]⟩ 0).current_step =
      (run_script_task "h"
        (fun _ => ⟨true, true, true, fun _ => some (CommandResult.Success "ok")⟩)
        ⟨5, "s", [ScriptStep.Shell "a" []]⟩ 0).total_steps ∧
    (run_script_task "h"
      (fun _ => ⟨true, true, true, fun _ => some (CommandResult.Success "ok")⟩)
      ⟨5, "s", [ScriptStep.Shell "a" []]⟩ 0).total_steps = 1 ∧
    (run_script_task "h"
      (fun _ => ⟨true, true, true, fun _ => some (CommandResult.Success "ok")⟩)
      ⟨5, "s", [ScriptStep.Shell "a" []]⟩ 0).status = "completed" :=
  C8_all_steps_succeed_completes "h"
    (fun _ => ⟨true, true, true, fun _ => some (CommandResult.Success "ok")⟩)
    ⟨5, "s", [ScriptStep.Shell "a" []]⟩ 0
    (by
      intro j s2 hg
      rcases j with _ | j2
      · simp only [List.get?] at hg
        cases hg
        decide
      · simp [List.get?] at hg)

/-- Claim C9: running a script whose step list is empty dispatches no
command, terminates with status `completed`, and leaves the cursor at
`current_step == 0` with `total_steps == 0`. -/
theorem C9_empty_script_completes (host : String) (env : Nat → StepEnv)
    (sid : Nat) (name : String) (ctr : Nat) :
    (run_script_task host env ⟨sid, name, []⟩ ctr).dispatched = [] ∧
    (run_script_task host env ⟨sid, name, []⟩ ctr).status = "completed" ∧
    (run_script_task host env ⟨sid, name, []⟩ ctr).current_step = 0 ∧
    (run_script_task host env ⟨sid, name, []⟩ ctr).total_steps = 0 :=
  ⟨rfl, rfl, rfl, rfl⟩

/-- Claim C5: dispatching a command to an agent identifier absent from the
Registry returns `NotFound` immediately, mints no correlation id, and
leaves the Result Store untouched. -/
theorem C5_dispatch_not_found (clients : Nat → Option ChannelState)
    (agent : Nat) (st : SendState) (h : clients agent = none) :
    send_command clients agent st = (SendCommandResult.notFound, st) ∧
    (send_command clients agent st).2.results = st.results ∧
    (send_command clients agent st).2.uuidCtr = st.uuidCtr := by
  have heq : send_command clients agent st = (SendCommandResult.notFound, st) := by
    unfold send_command
    rw [h]
  exact ⟨heq, by rw [heq], by rw [heq]⟩

/-- Witness for C5 at a concrete empty registry. -/
theorem C5_dispatch_not_found_witness :
    send_command (fun _ => none) 0 ⟨[], 0⟩ = (SendCommandResult.notFound, ⟨[], 0⟩) ∧
    (send_command (fun _ => none) 0 ⟨[], 0⟩).2.results = ([] : List (Nat × CommandResult)) ∧
    (send_command (fun _ => none) 0 ⟨[], 0⟩).2.uuidCtr = 0 :=
  C5_dispatch_not_found (fun _ => none) 0 ⟨[], 0⟩ rfl

/-- Claim C2 is false on the code: with the agent present and its outbound
queue full (100 of 100 slots used, receiver alive), `client.tx.send(msg).await`
suspends awaiting capacity — the call does not fail with a send error. -/
theorem C2_full_queue_counterexample :
    (send_command (fun _ => some ⟨100, 100, true⟩) 0 ⟨[], 0⟩).1 =
      SendCommandResult.suspendedOnFullQueue ∧
    SendCommandResult.suspendedOnFullQueue ≠ SendCommandResult.failedToSend ∧
    outbound_queue_capacity = 100 := by
  refine ⟨by decide, by decide, rfl⟩

/-- Claim C2 (amended): for a dispatch call on an agent present in the
Registry, a full outbound queue (bounded at 100 messages) causes the call
to suspend until capacity frees; a fatal send error occurs exactly when
the session's receiving half has been dropped; with free capacity the
enqueue returns immediately with the minted correlation id. -/
theorem C2_full_queue_suspends (clients : Nat → Option ChannelState)
    (agent : Nat) (ch : ChannelState) (st : SendState)
    (h : clients agent = some ch) :
    (ch.receiverOpen = true → ch.capacity ≤ ch.queued →
      (send_command clients agent st).1 = SendCommandResult.suspendedOnFullQueue) ∧
    (ch.receiverOpen = false →
      (send_command clients agent st).1 = SendCommandResult.failedToSend) ∧
    (ch.receiverOpen = true → ch.queued < ch.capacity →
      (send_command clients agent st).1 = SendCommandResult.okCmdId st.uuidCtr) := by
  refine ⟨?_, ?_, ?_⟩
  · intro hro hq
    have hm : mpsc_send ch = MpscSend.suspendsOnFullQueue := by
      unfold mpsc_send
      rw [hro]
      simp [Nat.not_lt.mpr hq]
    simp [send_command, h, hm]
  · intro hro
    have hm : mpsc_send ch = MpscSend.errClosed := by
      unfold mpsc_send
      rw [hro]
      simp
    simp [send_command, h, hm]
  · intro hro hq
    have hm : mpsc_send ch = MpscSend.enqueued := by
      unfold mpsc_send
      rw [hro]
      simp [hq]
    simp [send_command, h, hm]

/-- Witness for the amended C2 at a concrete full channel. -/
theorem C2_full_queue_suspends_witness :
    ((true : Bool) = true → 100 ≤ 100 →
      (send_command (fun _ => some ⟨100, 100, true⟩) 0 ⟨[], 0⟩).1 =
        SendCommandResult.suspendedOnFullQueue) ∧
    ((true : Bool) = false →
      (send_command (fun _ => some ⟨100, 100, true⟩) 0 ⟨[], 0⟩).1 =
        SendCommandResult.failedToSend) ∧
    ((true : Bool) = true → 100 < 100 →
      (send_command (fun _ => some ⟨100, 100, true⟩) 0 ⟨[], 0⟩).1 =
        SendCommandResult.okCmdId 0) :=
  C2_full_queue_suspends (fun _ => some ⟨100, 100, true⟩) 0 ⟨100, 100, true⟩ ⟨[], 0⟩ rfl

/-- Claim C3: running a group whose M registry-present members and S
bound scripts are non-empty (every bound script id resolving in the
scripts table) starts exactly M×S executions, each with a fresh distinct
execution id and a history record created before its run, while members
absent from the Registry contribute zero executions. -/
theorem C3_group_fanout_m_times_s (registry : Nat → Bool) (db : GroupDb)
    (ctr : Nat) (hm : db.members ≠ []) (hs : db.scriptIds ≠ [])
    (hres : ∀ sid2 ∈ db.scriptIds, (db.scriptsTable sid2).isSome = true) :
    (run_group_scripts registry db ctr).response = GroupResponse.ok ∧
    (execIds (run_group_scripts registry db ctr).trace).length =
      (db.members.filter registry).length * db.scriptIds.length ∧
    (execIds (run_group_scripts registry db ctr).trace).Nodup ∧
    wellPaired (run_group_scripts registry db ctr).trace = true ∧
    (∀ hid c sid2, GroupEvent.runStarted hid c sid2 ∈
      (run_group_scripts registry db ctr).trace → registry c = true) := by
  have hlen : (db.scriptIds.filterMap db.scriptsTable).length = db.scriptIds.length :=
    length_filterMap_all_some db.scriptsTable db.scriptIds hres
  have hresp : (run_group_scripts registry db ctr).response = GroupResponse.ok := by
    simp only [run_group_scripts]
    rw [if_neg (by simpa [List.isEmpty_iff] using hm),
      if_neg (by simpa [List.isEmpty_iff] using hs)]
  have htr : (run_group_scripts registry db ctr).trace =
      (run_group_members registry (db.scriptIds.filterMap db.scriptsTable)
        db.members ctr).1 := by
    simp only [run_group_scripts]
    rw [if_neg (by simpa [List.isEmpty_iff] using hm),
      if_neg (by simpa [List.isEmpty_iff] using hs)]
  obtain ⟨g1, g2, g3, g4⟩ := run_group_members_spec registry
    (db.scriptIds.filterMap db.scriptsTable) db.members ctr
  refine ⟨hresp, ?_, ?_, ?_, ?_⟩
  · rw [htr, g2, List.length_range', hlen]
  · rw [htr, g2]
    exact List.nodup_range' ..
  · rw [htr]
    exact g3
  · intro hid c sid2 hmem
    rw [htr] at hmem
    exact g4 hid c sid2 hmem

/-- Witness for C3: group with members 1, 2, 3 of which 1 and 2 are in
the Registry, and two bound scripts; 2×2 = 4 executions start. -/
theorem C3_group_fanout_m_times_s_witness :
    (run_group_scripts (fun m => decide (m ≤ 2))
      ⟨[1, 2, 3], [10, 11], fun sid2 => some ⟨sid2, "sc", []⟩⟩ 0).response =
      GroupResponse.ok ∧
    (execIds (run_group_scripts (fun m => decide (m ≤ 2))
      ⟨[1, 2, 3], [10, 11], fun sid2 => some ⟨sid2, "sc", []⟩⟩ 0).trace).length =
      ([1, 2, 3].filter (fun m => decide (m ≤ 2))).length * [10, 11].length ∧
    (execIds (run_group_scripts (fun m => decide (m ≤ 2))
      ⟨[1, 2, 3], [10, 11], fun sid2 => some ⟨sid2, "sc", []⟩⟩ 0).trace).Nodup ∧
    wellPaired (run_group_scripts (fun m => decide (m ≤ 2))
      ⟨[1, 2, 3], [10, 11], fun sid2 => some ⟨sid2, "sc", []⟩⟩ 0).trace = true ∧
    (∀ hid c sid2, GroupEvent.runStarted hid c sid2 ∈
      (run_group_scripts (fun m => decide (m ≤ 2))
        ⟨[1, 2, 3], [10, 11], fun sid2 => some ⟨sid2, "sc", []⟩⟩ 0).trace →
      (fun m => decide (m ≤ 2)) c = true) :=
  C3_group_fanout_m_times_s (fun m => decide (m ≤ 2))
    ⟨[1, 2, 3], [10, 11], fun sid2 => some ⟨sid2, "sc", []⟩⟩ 0
    (by decide) (by decide) (fun sid2 _ => rfl)

/-- Claim C4: with no arriving result, the bounded wait performs exactly
`max_attempts` polls (60, at a 500 ms interval) and yields no result —
never exiting earlier, never looping beyond the bound — and such an
outcome is classified as a step failure. -/
theorem C4_await_result_timeout (lookup : Nat → Option CommandResult)
    (h : ∀ t, lookup t = none) :
    poll_for_result lookup max_attempts 0 = (none, max_attempts) ∧
    max_attempts = 60 ∧ poll_interval_ms = 500 ∧
    (∀ (e : StepEnv) (s : ScriptStep), e.result = lookup →
      step_succeeds e s = false) := by
  refine ⟨by simpa using poll_for_result_none lookup h max_attempts 0, rfl, rfl, ?_⟩
  intro e s he
  unfold step_succeeds poll_result
  rw [he, poll_for_result_none lookup h max_attempts 0]
  simp

/-- Witness for C4 with a result store that never holds the id. -/
theorem C4_await_result_timeout_witness :
    poll_for_result (fun _ => none) max_attempts 0 = (none, max_attempts) ∧
    max_attempts = 60 ∧ poll_interval_ms = 500 ∧
    (∀ (e : StepEnv) (s : ScriptStep), e.result = (fun _ => none) →
      step_succeeds e s = false) :=
  C4_await_result_timeout (fun _ => none) (fun _ => rfl)

/-- Claim C7: a first message that is a registration with a wrong token
gets an auth-failure message and the connection is closed with no registry
entry; any non-registration first message closes with no entry created. -/
theorem C7_handshake_rejection (auth_token : String) (ev : FirstEvent) :
    (∀ cid tok hn os al ver ips,
      ev = FirstEvent.frame (Except.ok (Message.Register cid tok hn os al ver ips)) →
      tok ≠ auth_token →
      handle_socket_auth auth_token ev =
        AuthOutcome.closed [Message.AuthFailed "Invalid token"] ∧
      (handle_socket_auth auth_token ev).createsEntry = false) ∧
    (∀ m, ev = FirstEvent.frame (Except.ok m) → m.isRegister = false →
      handle_socket_auth auth_token ev = AuthOutcome.closed [] ∧
      (handle_socket_auth auth_token ev).createsEntry = false) := by
  constructor
  · rintro cid tok hn os al ver ips rfl hne
    simp [handle_socket_auth, AuthOutcome.createsEntry, hne]
  · rintro m rfl hreg
    cases m <;>
      simp_all [handle_socket_auth, Message.isRegister, AuthOutcome.createsEntry]

/-- Witness for C7: a wrong-token registration and a non-registration
first message against secret `"secret"`. -/
theorem C7_handshake_rejection_witness :
    (handle_socket_auth "secret"
        (FirstEvent.frame (Except.ok (Message.Register 7 "bad" "h" "o" none "v" []))) =
      AuthOutcome.closed [Message.AuthFailed "Invalid token"]) ∧
    (handle_socket_auth "secret" (FirstEvent.frame (Except.ok Message.Heartbeat)) =
      AuthOutcome.closed []) :=
  ⟨((C7_handshake_rejection "secret"
      (FirstEvent.frame (Except.ok (Message.Register 7 "bad" "h" "o" none "v" [])))).1
      7 "bad" "h" "o" none "v" [] rfl (by decide)).1,
   ((C7_handshake_rejection "secret"
      (FirstEvent.frame (Except.ok Message.Heartbeat))).2
      Message.Heartbeat rfl rfl).1⟩

/-- Claim C6: a correlation id maps to at most one result: the inbound
handler's insert keeps at most one binding per id, a duplicate reply
overwrites the stored result, and reading a result does not remove it. -/
theorem C6_result_store_overwrite (store : List (Nat × CommandResult))
    (id : Nat) (r1 r2 : CommandResult) (hinv : ∀ k, countKey store k ≤ 1) :
    countKey (handle_response store id r1) id = 1 ∧
    (∀ k, countKey (handle_response store id r1) k ≤ 1) ∧
    dashmap_get (handle_response (handle_response store id r1) id r2) id = some r2 ∧
    countKey (handle_response (handle_response store id r1) id r2) id = 1 ∧
    (get_command_result store id).2 = store := by
  have h1 : countKey (handle_response store id r1) id = 1 :=
    countKey_insert_self store id r1 (hinv id)
  have h2 : ∀ k, countKey (handle_response store id r1) k ≤ 1 := by
    intro k
    by_cases hk : k = id
    · subst hk
      rw [h1]
    · simp only [handle_response]
      rw [countKey_insert_other store id k r1 hk]
      exact hinv k
  exact ⟨h1, h2, dashmap_get_insert_self _ id r2,
    countKey_insert_self _ id r2 (h2 id), rfl⟩

/-- Witness for C6 on an initially empty store. -/
theorem C6_result_store_overwrite_witness :
    countKey (handle_response [] 1 (CommandResult.Success "a")) 1 = 1 ∧
    (∀ k, countKey (handle_response [] 1 (CommandResult.Success "a")) k ≤ 1) ∧
    dashmap_get (handle_response (handle_response [] 1 (CommandResult.Success "a")) 1
      (CommandResult.Success "b")) 1 = some (CommandResult.Success "b") ∧
    countKey (handle_response (handle_response [] 1 (CommandResult.Success "a")) 1
      (CommandResult.Success "b")) 1 = 1 ∧
    (get_command_result [] 1).2 = ([] : List (Nat × CommandResult)) :=
  C6_result_store_overwrite [] 1 (CommandResult.Success "a") (CommandResult.Success "b")
    (fun k => by simp [countKey])

/-- Claim C10: forced eviction of an agent removes its Registry entry and
persisted record but leaves the Result Store and the in-memory execution
progress table unchanged; stored results stay readable. -/
theorem C10_delete_client_frame (st : AppState) (id : Nat) :
    (delete_client st id).results = st.results ∧
    (delete_client st id).active_executions = st.active_executions ∧
    (∀ cid, dashmap_get (delete_client st id).results cid = dashmap_get st.results cid) ∧
    dashmap_get (delete_client st id).clients id = none ∧
    id ∉ (delete_client st id).db_clients := by
  refine ⟨rfl, rfl, fun cid => rfl, ?_, ?_⟩
  · exact dashmap_get_remove_self st.clients id
  · simp [delete_client, List.mem_filter]

end Roam
